import Mathlib

/-!
Shallow embedding of the parts of libjpeg-turbo needed to settle the claims:

* `simd/mips64/jsimdcpu.c` — the MIPS64 runtime CPU-capability detector
  (`check_feature`, `parse_proc_cpuinfo`, `jpeg_simd_cpu_support`);
* `turbojpeg.h` — the static format-model tables (`tjMCUWidth`, `tjMCUHeight`,
  `tjRedOffset`, `tjGreenOffset`, `tjBlueOffset`, `tjAlphaOffset`,
  `tjPixelSize`) and the `TJPAD` / `TJSCALED` macros.

C strings are modelled as `List Char` of non-NUL bytes, the terminating NUL
being the end of the list.  The `/proc/cpuinfo` stream is modelled as
`Option (List Char)`: `none` means `fopen` failed, `some s` is the full byte
content of the file.  C `int` values are modelled as `Nat`/`Int` (32-bit
two's complement made explicit where bit operations depend on it).
-/

/-- C `isspace` in the C locale: space (32) and the five control characters
9–13 (`\t`, `\n`, `\v`, `\f`, `\r`). -/
def isspace (c : Char) : Bool :=
  c.toNat == 32 || (9 ≤ c.toNat && c.toNat ≤ 13)

/-- The 16-character key phrase compared by
`strncmp(buffer, "ASEs implemented", 16)` in `check_feature`. -/
def keyPhrase : List Char := ("ASEs implemented").data

/-- Index of the first occurrence of `needle` in `hay` (C `strstr`), `none`
when `strstr` returns NULL.  An empty needle matches at index 0, as in C. -/
def strstrIdx (hay needle : List Char) : Option Nat :=
  (List.range (hay.length + 1)).find? (fun i => (hay.drop i).take needle.length == needle)

/-- The scanning loop of `check_feature` (jsimdcpu.c lines 47–59).  The C
loop keeps a moving pointer `buffer` into the line: it finds the first
`strstr` occurrence of `feature` at or after `buffer`; if the occurrence is
strictly after `buffer` and the byte before it is not a space, it advances
`buffer` by one and rescans; otherwise, if the byte after the occurrence is
neither NUL nor a space it advances `buffer` by one and rescans; otherwise
it returns TRUE.  It returns FALSE when `strstr` finds nothing.  The
argument here is the current `buffer` suffix; `buffer++` is `tail`. -/
def checkLoop (feature : List Char) : List Char → Bool
  | [] =>
    (match strstrIdx [] feature with
     | none => false
     | some _ => true)
  | b@(_ :: tail) =>
    match strstrIdx b feature with
    | none => false
    | some i =>
      if 0 < i && !(isspace (b.getD (i - 1) 'a')) then
        checkLoop feature tail
      else
        match (b.drop (i + feature.length)).head? with
        | none => true
        | some c => if isspace c then true else checkLoop feature tail

/-- `check_feature` (jsimdcpu.c lines 34–61): FALSE for an empty feature;
FALSE unless the line starts with the 16-byte key phrase (`strncmp` equality
on the first 16 bytes); otherwise skip the key phrase, skip leading
whitespace, and run the scanning loop. -/
def check_feature (buffer feature : List Char) : Bool :=
  if feature.isEmpty then false
  else if buffer.take 16 ≠ keyPhrase then false
  else checkLoop feature ((buffer.drop 16).dropWhile isspace)

/-- Modelled from the spec and the build headers outside `src/`: the single
capability bit for the Loongson MMI kernel family, `#define JSIMD_MMI 0x80`
in `simd/jsimd.h` (that header is not under `src/`).  The claims depend only
on this being one fixed nonzero bit. -/
def JSIMD_MMI : Nat := 0x80

/-- `#define SOMEWHAT_SANE_PROC_CPUINFO_SIZE_LIMIT (1024 * 1024)`. -/
def SOMEWHAT_SANE_PROC_CPUINFO_SIZE_LIMIT : Nat := 1024 * 1024

/-- The feature token `parse_proc_cpuinfo` looks for. -/
def mmiFeature : List Char := ("loongson-mmi").data

/-- Character-reading loop of C `fgets(buffer, bufsize, fd)`, with first
argument the remaining capacity `bufsize - 1`.  Returns the characters
read, the rest of the stream, and the stream's end-of-file flag after the
call.  `fgets` stops after a newline or when the capacity is exhausted
(without touching the stream further, so EOF is *not* set even if the
stream happens to end there); it sets EOF only when it actually attempts to
read at end of stream. -/
def fgetsChars : Nat → List Char → List Char × List Char × Bool
  | 0, rest => ([], rest, false)
  | _ + 1, [] => ([], [], true)
  | n + 1, c :: rest =>
    if c = '\n' then ([c], rest, false)
    else
      let r := fgetsChars n rest
      (c :: r.1, r.2.1, r.2.2)

/-- C `fgets(buffer, bufsize, fd)` on the modelled stream: `none` (NULL)
when the stream is already at end-of-file, otherwise the line read (up to
`bufsize - 1` characters, through a newline), the remaining stream, and the
end-of-file flag. -/
def fgetsModel (bufsize : Nat) (stream : List Char) : Option (List Char) × List Char × Bool :=
  match stream with
  | [] => (none, [], true)
  | _ :: _ =>
    let r := fgetsChars (bufsize - 1) stream
    (some r.1, r.2.1, r.2.2)

/-- The `while (fgets(...))` loop of `parse_proc_cpuinfo` (jsimdcpu.c lines
78–89).  `acc` is the current value of `*simd_support`.  Returns the C
function's boolean result together with the final value of `*simd_support`
(the C function communicates the mask through the pointer even when it
returns FALSE).  A line that contains no newline while the stream is not at
end-of-file is the "insufficient buffer" case: return FALSE immediately.
The fuel argument only forces termination; one character is consumed per
iteration whenever `bufsize ≥ 2`, so `stream.length + 1` units are never
exhausted in any reachable call. -/
def parseLoop (bufsize : Nat) : Nat → List Char → Nat → Bool × Nat
  | 0, _, acc => (true, acc)
  | fuel + 1, stream, acc =>
    match fgetsModel bufsize stream with
    | (none, _, _) => (true, acc)
    | (some line, rest, eofFlag) =>
      if '\n' ∉ line ∧ eofFlag = false then (false, acc)
      else
        parseLoop bufsize fuel rest
          (if check_feature line mmiFeature then acc ||| JSIMD_MMI else acc)

/-- `parse_proc_cpuinfo` (jsimdcpu.c lines 64–91).  The buffer allocation is
assumed to succeed.  The C function first sets `*simd_support = 0`; when
`fopen("/proc/cpuinfo", "r")` fails (`cpuinfo = none`) it skips the read
loop and returns TRUE with the mask still zero. -/
def parse_proc_cpuinfo (bufsize : Nat) (cpuinfo : Option (List Char)) : Bool × Nat :=
  match cpuinfo with
  | none => (true, 0)
  | some stream => parseLoop bufsize (stream.length + 1) stream 0

/-- The `while (!parse_proc_cpuinfo(...))` retry loop of
`jpeg_simd_cpu_support` (jsimdcpu.c lines 107–111): on FALSE, double
`bufsize`; stop once the doubled size exceeds the limit, returning whatever
`*simd_support` currently holds.  Starting from 1024, at most 11 parse
attempts can happen (1024·2¹⁰ = 2²⁰ is the last size not beyond the limit),
so fuel 11 makes the fuel-0 branch unreachable from `jpeg_simd_cpu_support`;
that branch returns the current attempt's mask like the loop body would. -/
def supportLoop (cpuinfo : Option (List Char)) : Nat → Nat → Nat
  | 0, bufsize => (parse_proc_cpuinfo bufsize cpuinfo).2
  | fuel + 1, bufsize =>
    match parse_proc_cpuinfo bufsize cpuinfo with
    | (true, mask) => mask
    | (false, mask) =>
      if bufsize * 2 > SOMEWHAT_SANE_PROC_CPUINFO_SIZE_LIMIT then mask
      else supportLoop cpuinfo fuel (bufsize * 2)

/-- `jpeg_simd_cpu_support` (jsimdcpu.c lines 96–115) in the
`!defined(__mips_loongson_vector_rev) && defined(__linux__)` configuration:
initial line-buffer guess 1024 bytes, then the doubling retry loop. -/
def jpeg_simd_cpu_support (cpuinfo : Option (List Char)) : Nat :=
  supportLoop cpuinfo 11 1024

/-- `static const int tjMCUWidth[TJ_NUMSAMP]` (turbojpeg.h line 171); index
order is the `TJSAMP` enum: 444, 422, 420, GRAY, 440, 411. -/
def tjMCUWidth : List Int := [8, 16, 16, 8, 8, 32]

/-- `static const int tjMCUHeight[TJ_NUMSAMP]` (turbojpeg.h line 197). -/
def tjMCUHeight : List Int := [8, 8, 16, 8, 16, 8]

/-- Horizontal chroma divisor of each `TJSAMP` mode, from the enum
documentation in turbojpeg.h ("one chrominance component for every HxV
block of pixels"): 444→1, 422→2, 420→2, GRAY→1, 440→1, 411→4. -/
def hDiv : List Int := [1, 2, 2, 1, 1, 4]

/-- Vertical chroma divisor of each `TJSAMP` mode, from the enum
documentation in turbojpeg.h: 444→1, 422→1, 420→2, GRAY→1, 440→2, 411→1. -/
def vDiv : List Int := [1, 1, 2, 1, 2, 1]

/-- `static const int tjRedOffset[TJ_NUMPF]` (turbojpeg.h line 334); index
order is the `TJPF` enum: RGB, BGR, RGBX, BGRX, XBGR, XRGB, GRAY, RGBA,
BGRA, ABGR, ARGB, CMYK. -/
def tjRedOffset : List Int := [0, 2, 0, 2, 3, 1, -1, 0, 2, 3, 1, -1]

/-- `static const int tjGreenOffset[TJ_NUMPF]` (turbojpeg.h line 346). -/
def tjGreenOffset : List Int := [1, 1, 1, 1, 2, 2, -1, 1, 1, 2, 2, -1]

/-- `static const int tjBlueOffset[TJ_NUMPF]` (turbojpeg.h line 358). -/
def tjBlueOffset : List Int := [2, 0, 2, 0, 1, 3, -1, 2, 0, 1, 3, -1]

/-- `static const int tjAlphaOffset[TJ_NUMPF]` (turbojpeg.h line 370). -/
def tjAlphaOffset : List Int := [-1, -1, -1, -1, -1, -1, -1, 3, 3, 0, 0, -1]

/-- `static const int tjPixelSize[TJ_NUMPF]` (turbojpeg.h line 376). -/
def tjPixelSize : List Int := [3, 3, 4, 4, 4, 4, 1, 4, 4, 4, 4, 4]

/-- The four channel offsets of pixel format `f`, in R, G, B, A order. -/
def channelOffsets (f : Nat) : List Int :=
  [tjRedOffset.getD f (-1), tjGreenOffset.getD f (-1),
   tjBlueOffset.getD f (-1), tjAlphaOffset.getD f (-1)]

/-- Number of channel offsets of format `f` that are defined, i.e. not the
sentinel value -1. -/
def definedOffsetCount (f : Nat) : Nat :=
  ((channelOffsets f).filter (fun o => decide (o ≠ -1))).length

/-- `typedef struct { int num; int denom; } tjscalingfactor;` (turbojpeg.h).
The claims only concern numerators and denominators that are ≥ 1, so the
fields are modelled as `Nat`. -/
structure tjscalingfactor where
  num : Nat
  denom : Nat
deriving DecidableEq, Repr

/-- `#define TJPAD(width) (((width) + 3) & (~3))` (turbojpeg.h line 747).
`int` is modelled as 32-bit two's complement, so `~3` is the mask
`0xFFFFFFFC`; this is faithful for every `width` with `width + 3 < 2^31`
(the claim's no-overflow range). -/
def TJPAD (width : Nat) : Nat := (width + 3) &&& 0xFFFFFFFC

/-- `#define TJSCALED(dimension, scalingFactor) (((dimension) *
scalingFactor.num + scalingFactor.denom - 1) / scalingFactor.denom)`
(turbojpeg.h lines 754–756).  C truncating division coincides with `Nat`
floor division on the claims' nonnegative range. -/
def TJSCALED (dimension : Nat) (scalingFactor : tjscalingfactor) : Nat :=
  (dimension * scalingFactor.num + scalingFactor.denom - 1) / scalingFactor.denom

/-- Modelled from the spec: the decoder's supported scaling factors, as
returned by `tjGetScalingFactors` (declared in turbojpeg.h line 1264; the
table itself lives in turbojpeg.c, which is not under `src/`).  Per the
spec (§4.6, §8) the list is ordered largest-first, `2/1, 15/8, 1/1, 7/8,
... 1/8`: the sixteen fractions n/8 for n = 16 down to 1, in lowest
terms. -/
def scalingFactors : List tjscalingfactor :=
  [⟨2, 1⟩, ⟨15, 8⟩, ⟨7, 4⟩, ⟨13, 8⟩, ⟨3, 2⟩, ⟨11, 8⟩, ⟨5, 4⟩, ⟨9, 8⟩,
   ⟨1, 1⟩, ⟨7, 8⟩, ⟨3, 4⟩, ⟨5, 8⟩, ⟨1, 2⟩, ⟨3, 8⟩, ⟨1, 4⟩, ⟨1, 8⟩]

/-- Modelled from the spec: scaling-factor selection (§4.6) — among the
supported factors, ordered largest-first, pick the first (hence largest)
whose `TJSCALED`-scaled dimension does not exceed the requested target. -/
def selectScalingFactor (dim target : Nat) : Option tjscalingfactor :=
  scalingFactors.find? (fun f => decide (TJSCALED dim f ≤ target))

/-- Body (without the newline) of the feature line used by the C2
counterexample stream: a line that sets the MMI bit. -/
def featBody : List Char := ("ASEs implemented: loongson-mmi").data

/-- A `/proc/cpuinfo` content on which every parse attempt fails: one valid
feature line (which sets the MMI bit) followed by 2^20 bytes with no
newline, a line that cannot fit any buffer of size ≤ 2^20. -/
def hugeStream : List Char := featBody ++ '\n' :: List.replicate (2 ^ 20) 'a'

/-! ## Helper lemmas about the `fgets` model -/

/-- `fgets` reading from a run of `k` letters `'a'`: it takes `min n k` of
them, leaves the rest, and hits end-of-file exactly when the run is shorter
than the capacity. -/
theorem fgetsChars_replicate (n k : Nat) :
    fgetsChars n (List.replicate k 'a') =
      (List.replicate (min n k) 'a', List.replicate (k - n) 'a', decide (k < n)) := by
  induction n generalizing k with
  | zero => simp [fgetsChars]
  | succ m ih =>
    cases k with
    | zero => simp [fgetsChars]
    | succ k' =>
      rw [List.replicate_succ]
      simp only [fgetsChars, ih k']
      rw [if_neg (by decide)]
      simp [← List.replicate_succ, Nat.succ_min_succ, Nat.succ_sub_succ]

/-- `fgets` with enough capacity reads a newline-terminated line whole and
does not set end-of-file. -/
theorem fgetsChars_line (l l₂ : List Char) (hl : '\n' ∉ l) :
    ∀ n, l.length < n → fgetsChars n (l ++ '\n' :: l₂) = (l ++ ['\n'], l₂, false) := by
  induction l with
  | nil =>
    intro n hn
    obtain ⟨m, rfl⟩ : ∃ m, n = m + 1 := ⟨n - 1, by omega⟩
    simp [fgetsChars]
  | cons c l' ih =>
    intro n hn
    obtain ⟨m, rfl⟩ : ∃ m, n = m + 1 := ⟨n - 1, by omega⟩
    have hc : c ≠ '\n' := fun hc => hl (by simp [hc])
    have hm : l'.length < m := by simpa using Nat.lt_of_succ_lt_succ (by simpa using hn)
    simp [fgetsChars, hc, ih (fun hmem => hl (List.mem_cons_of_mem _ hmem)) m hm]

theorem fgetsModel_of_newline (l l₂ : List Char) (b : Nat) (hl : '\n' ∉ l)
    (hb : l.length < b - 1) :
    fgetsModel b (l ++ '\n' :: l₂) = (some (l ++ ['\n']), l₂, false) := by
  have h1 := fgetsChars_line l l₂ hl (b - 1) hb
  cases l with
  | nil => simp_all [fgetsModel]
  | cons c l' => simp_all [fgetsModel, List.cons_append]

theorem fgetsModel_replicate (b k : Nat) (hk : 0 < k) :
    fgetsModel b (List.replicate k 'a') =
      (some (List.replicate (min (b - 1) k) 'a'),
       List.replicate (k - (b - 1)) 'a', decide (k < b - 1)) := by
  obtain ⟨k', rfl⟩ : ∃ k', k = k' + 1 := ⟨k - 1, by omega⟩
  rw [List.replicate_succ]
  simp only [fgetsModel, ← List.replicate_succ, fgetsChars_replicate]

/-! ## Helper lemmas about the parse and retry loops -/

/-- One iteration of the read loop on a line that passes the
insufficient-buffer test. -/
theorem parseLoop_step (b fuel : Nat) (stream line rest : List Char) (acc : Nat) (eofFlag : Bool)
    (hf : fgetsModel b stream = (some line, rest, eofFlag))
    (hok : ¬ ('\n' ∉ line ∧ eofFlag = false)) :
    parseLoop b (fuel + 1) stream acc =
      parseLoop b fuel rest (if check_feature line mmiFeature then acc ||| JSIMD_MMI else acc) := by
  simp only [parseLoop, hf]
  rw [if_neg hok]

/-- One iteration of the read loop on a line with no newline while not at
end-of-file: the "insufficient buffer" early FALSE return, with the mask
accumulated so far still in `*simd_support`. -/
theorem parseLoop_insufficient (b fuel : Nat) (stream line rest : List Char) (acc : Nat)
    (hf : fgetsModel b stream = (some line, rest, false))
    (hnl : '\n' ∉ line) :
    parseLoop b (fuel + 1) stream acc = (false, acc) := by
  simp only [parseLoop, hf]
  rw [if_pos ⟨hnl, trivial⟩]

/-- On `hugeStream`, every parse attempt with a buffer of size between 32
bytes and the 1 MiB limit reads the feature line (setting the MMI bit) and
then fails on the over-long second line, returning FALSE with the bit
already stored through the pointer. -/
theorem parse_fail_hugeStream (b : Nat) (hb : 32 ≤ b) (hb2 : b ≤ 2 ^ 20) :
    parse_proc_cpuinfo b (some hugeStream) = (false, JSIMD_MMI) := by
  have hlen : hugeStream.length = 30 + 2 ^ 20 + 1 := by
    rw [hugeStream, List.length_append, List.length_cons, List.length_replicate]
    norm_num [featBody]
  have hstep1 : fgetsModel b hugeStream =
      (some (featBody ++ ['\n']), List.replicate (2 ^ 20) 'a', false) :=
    fgetsModel_of_newline featBody _ b (by decide) (by simp [featBody]; omega)
  have hstep2 : fgetsModel b (List.replicate (2 ^ 20) 'a') =
      (some (List.replicate (b - 1) 'a'), List.replicate (2 ^ 20 - (b - 1)) 'a', false) := by
    rw [fgetsModel_replicate b _ (by norm_num)]
    have hmin : min (b - 1) (2 ^ 20) = b - 1 := by omega
    have hlt : decide (2 ^ 20 < b - 1) = false := decide_eq_false (by omega)
    rw [hmin, hlt]
  show parseLoop b (hugeStream.length + 1) hugeStream 0 = (false, JSIMD_MMI)
  rw [parseLoop_step b _ _ _ _ 0 false hstep1 (by simp)]
  rw [if_pos (by decide)]
  rw [show (0 : Nat) ||| JSIMD_MMI = JSIMD_MMI from by decide]
  rw [hlen]
  exact parseLoop_insufficient b _ _ _ _ JSIMD_MMI hstep2
    (fun hmem => by simpa using List.eq_of_mem_replicate hmem)

theorem supportLoop_zero (c : Option (List Char)) (b : Nat) :
    supportLoop c 0 b = (parse_proc_cpuinfo b c).2 := rfl

theorem supportLoop_parse_ok (c : Option (List Char)) (fuel b : Nat)
    (h : (parse_proc_cpuinfo b c).1 = true) :
    supportLoop c (fuel + 1) b = (parse_proc_cpuinfo b c).2 := by
  simp only [supportLoop]
  rcases hp : parse_proc_cpuinfo b c with ⟨flag, mask⟩
  rw [hp] at h
  cases flag with
  | true => rfl
  | false => simp at h

theorem supportLoop_parse_fail_retry (c : Option (List Char)) (fuel b : Nat)
    (h : (parse_proc_cpuinfo b c).1 = false)
    (h2 : b * 2 ≤ SOMEWHAT_SANE_PROC_CPUINFO_SIZE_LIMIT) :
    supportLoop c (fuel + 1) b = supportLoop c fuel (b * 2) := by
  simp only [supportLoop]
  rcases hp : parse_proc_cpuinfo b c with ⟨flag, mask⟩
  rw [hp] at h
  cases flag with
  | true => simp at h
  | false =>
    simp only
    rw [if_neg (by omega)]

theorem supportLoop_parse_fail_stop (c : Option (List Char)) (fuel b : Nat)
    (h : (parse_proc_cpuinfo b c).1 = false)
    (h2 : b * 2 > SOMEWHAT_SANE_PROC_CPUINFO_SIZE_LIMIT) :
    supportLoop c (fuel + 1) b = (parse_proc_cpuinfo b c).2 := by
  simp only [supportLoop]
  rcases hp : parse_proc_cpuinfo b c with ⟨flag, mask⟩
  rw [hp] at h
  cases flag with
  | true => simp at h
  | false =>
    simp only
    rw [if_pos (by omega)]

/-- On `hugeStream` the whole retry loop, started anywhere in its reachable
range, ends up returning the MMI bit accumulated by the last failed
attempt. -/
theorem supportLoop_hugeStream (fuel : Nat) :
    ∀ b, 32 ≤ b → b ≤ 2 ^ 20 → supportLoop (some hugeStream) fuel b = JSIMD_MMI := by
  induction fuel with
  | zero =>
    intro b h1 h2
    rw [supportLoop_zero, parse_fail_hugeStream b h1 h2]
  | succ n ih =>
    intro b h1 h2
    by_cases hb : b * 2 > SOMEWHAT_SANE_PROC_CPUINFO_SIZE_LIMIT
    · rw [supportLoop_parse_fail_stop _ _ _ (by rw [parse_fail_hugeStream b h1 h2]) hb,
        parse_fail_hugeStream b h1 h2]
    · have hlim : SOMEWHAT_SANE_PROC_CPUINFO_SIZE_LIMIT = 2 ^ 20 := by
        norm_num [SOMEWHAT_SANE_PROC_CPUINFO_SIZE_LIMIT]
      rw [supportLoop_parse_fail_retry _ _ _ (by rw [parse_fail_hugeStream b h1 h2]) (by omega)]
      rw [hlim] at hb
      exact ih (b * 2) (by omega) (by omega)

/-- The accumulator of the read loop never holds anything except 0 or the
MMI bit. -/
theorem parseLoop_mask (b : Nat) :
    ∀ fuel stream acc, acc = 0 ∨ acc = JSIMD_MMI →
      ((parseLoop b fuel stream acc).2 = 0 ∨ (parseLoop b fuel stream acc).2 = JSIMD_MMI) := by
  intro fuel
  induction fuel with
  | zero => intro s acc h; exact h
  | succ n ih =>
    intro s acc h
    rcases hf : fgetsModel b s with ⟨lineOpt, rest, eofFlag⟩
    cases lineOpt with
    | none =>
      have heq : parseLoop b (n + 1) s acc = (true, acc) := by simp only [parseLoop, hf]
      rw [heq]; exact h
    | some line =>
      by_cases hc : '\n' ∉ line ∧ eofFlag = false
      · have heq : parseLoop b (n + 1) s acc = (false, acc) := by
          simp only [parseLoop, hf]; rw [if_pos hc]
        rw [heq]; exact h
      · have heq : parseLoop b (n + 1) s acc =
            parseLoop b n rest
              (if check_feature line mmiFeature then acc ||| JSIMD_MMI else acc) := by
          simp only [parseLoop, hf]; rw [if_neg hc]
        rw [heq]
        apply ih
        by_cases hcf : check_feature line mmiFeature
        · rw [if_pos hcf]
          rcases h with h | h <;> rw [h] <;> exact Or.inr (by decide)
        · rw [if_neg hcf]; exact h

/-- Each parse attempt writes either 0 or the MMI bit through
`*simd_support`, having reset it to 0 on entry. -/
theorem parse_mask (b : Nat) (c : Option (List Char)) :
    (parse_proc_cpuinfo b c).2 = 0 ∨ (parse_proc_cpuinfo b c).2 = JSIMD_MMI := by
  cases c with
  | none => exact Or.inl rfl
  | some stream => exact parseLoop_mask b _ stream 0 (Or.inl rfl)

theorem supportLoop_mask :
    ∀ fuel b c, supportLoop c fuel b = 0 ∨ supportLoop c fuel b = JSIMD_MMI := by
  intro fuel
  induction fuel with
  | zero => intro b c; rw [supportLoop_zero]; exact parse_mask b c
  | succ n ih =>
    intro b c
    rcases hp : parse_proc_cpuinfo b c with ⟨flag, mask⟩
    have hmask : mask = 0 ∨ mask = JSIMD_MMI := by
      have hm := parse_mask b c; rw [hp] at hm; exact hm
    cases flag with
    | true => rw [supportLoop_parse_ok c n b (by rw [hp]), hp]; exact hmask
    | false =>
      by_cases hb : b * 2 > SOMEWHAT_SANE_PROC_CPUINFO_SIZE_LIMIT
      · rw [supportLoop_parse_fail_stop c n b (by rw [hp]) hb, hp]; exact hmask
      · rw [supportLoop_parse_fail_retry c n b (by rw [hp]) (by omega)]
        exact ih (b * 2) c

/-- For inputs below 2^32, masking with the 32-bit two's-complement `~3`
clears the two lowest bits, i.e. rounds down to a multiple of 4. -/
theorem land_mask (n : Nat) (h : n < 2 ^ 32) : n &&& 0xFFFFFFFC = 4 * (n / 4) := by
  apply Nat.eq_of_testBit_eq
  intro i
  rw [Nat.testBit_land]
  have hmask : (0xFFFFFFFC : Nat) = (2 ^ 30 - 1) <<< 2 := by
    norm_num [Nat.shiftLeft_eq]
  have hrhs : 4 * (n / 4) = (n >>> 2) <<< 2 := by
    simp [Nat.shiftRight_eq_div_pow, Nat.shiftLeft_eq]
    ring
  rw [hmask, hrhs, Nat.testBit_shiftLeft, Nat.testBit_shiftLeft, Nat.testBit_shiftRight,
    Nat.testBit_two_pow_sub_one]
  by_cases h2 : 2 ≤ i
  · by_cases h32 : i < 32
    · simp [h2, show 2 + (i - 2) = i by omega, show i - 2 < 30 by omega]
    · have hbit : n.testBit (2 + (i - 2)) = false := by
        apply Nat.testBit_lt_two_pow
        calc n < 2 ^ 32 := h
          _ ≤ 2 ^ (2 + (i - 2)) := Nat.pow_le_pow_right (by norm_num) (by omega)
      have hbit2 : n.testBit i = false := by
        apply Nat.testBit_lt_two_pow
        calc n < 2 ^ 32 := h
          _ ≤ 2 ^ i := Nat.pow_le_pow_right (by norm_num) (by omega)
      simp [hbit, hbit2]
  · simp [h2]

/-! ## Claim theorems -/

/-- Claim C1 (code bug). The claim says `check_feature` accepts a feature
only as a whole word, i.e. a match neither preceded nor followed by a
non-space character.  The code does enforce the right boundary, but the
left-boundary test only triggers a rescan from the next character, so when
the scan pointer reaches the match itself the occurrence is accepted even
though it is directly preceded by the non-space byte `'x'`: on the line
`"ASEs implemented xloongson-mmi"` the code reports `loongson-mmi` present,
where the claim (and the code's own "separate word" comment) require
FALSE. -/
theorem check_feature_left_boundary_failing_input :
    check_feature (("ASEs implemented xloongson-mmi").data) mmiFeature = true := by
  decide

/-- Claim C9. `check_feature` with an empty feature string returns FALSE
for every buffer: the `*feature == 0` guard fires before anything else. -/
theorem check_feature_empty_feature (buffer : List Char) :
    check_feature buffer [] = false := rfl

/-- Claim C7. If `/proc/cpuinfo` cannot be opened, `parse_proc_cpuinfo`
still returns TRUE (success) with the capability mask set to zero — for any
buffer size — and consequently `jpeg_simd_cpu_support` reports no extra
capability without any error path. -/
theorem parse_proc_cpuinfo_absent_file :
    (∀ bufsize, parse_proc_cpuinfo bufsize none = (true, 0)) ∧
      jpeg_simd_cpu_support none = 0 :=
  ⟨fun _ => rfl, rfl⟩

/-- Claim C8. Every value `jpeg_simd_cpu_support` returns is either 0 or
exactly the `JSIMD_MMI` bit, and every single `parse_proc_cpuinfo` call
likewise leaves only 0 or `JSIMD_MMI` in `*simd_support` — the mask is
reset to zero at the start of each attempt (`parseLoop` starts from
accumulator 0 in `parse_proc_cpuinfo`), so bits from an earlier failed
attempt never leak into a later retry's result. -/
theorem simd_support_mask_invariant :
    (∀ cpuinfo, jpeg_simd_cpu_support cpuinfo = 0 ∨
      jpeg_simd_cpu_support cpuinfo = JSIMD_MMI) ∧
    (∀ bufsize cpuinfo, (parse_proc_cpuinfo bufsize cpuinfo).2 = 0 ∨
      (parse_proc_cpuinfo bufsize cpuinfo).2 = JSIMD_MMI) :=
  ⟨fun cpuinfo => supportLoop_mask 11 1024 cpuinfo,
   fun bufsize cpuinfo => parse_mask bufsize cpuinfo⟩

/-- Claim C2 (counterexample). On the stream `hugeStream` — a valid MMI
feature line followed by a line longer than the 1 MiB ceiling — every one
of the eleven buffer sizes the retry loop can attempt (1024, 2048, …,
1048576) fails, so the loop exhausts its doubling budget; yet
`jpeg_simd_cpu_support` returns the nonzero `JSIMD_MMI` mask accumulated
before the over-long line, not the zero mask the claim states. -/
theorem jpeg_simd_retry_nonzero_counterexample :
    (parse_proc_cpuinfo 1024 (some hugeStream)).1 = false ∧
    (parse_proc_cpuinfo 2048 (some hugeStream)).1 = false ∧
    (parse_proc_cpuinfo 4096 (some hugeStream)).1 = false ∧
    (parse_proc_cpuinfo 8192 (some hugeStream)).1 = false ∧
    (parse_proc_cpuinfo 16384 (some hugeStream)).1 = false ∧
    (parse_proc_cpuinfo 32768 (some hugeStream)).1 = false ∧
    (parse_proc_cpuinfo 65536 (some hugeStream)).1 = false ∧
    (parse_proc_cpuinfo 131072 (some hugeStream)).1 = false ∧
    (parse_proc_cpuinfo 262144 (some hugeStream)).1 = false ∧
    (parse_proc_cpuinfo 524288 (some hugeStream)).1 = false ∧
    (parse_proc_cpuinfo 1048576 (some hugeStream)).1 = false ∧
    jpeg_simd_cpu_support (some hugeStream) = JSIMD_MMI ∧ JSIMD_MMI ≠ 0 := by
  refine ⟨?_, ?_, ?_, ?_, ?_, ?_, ?_, ?_, ?_, ?_, ?_,
    supportLoop_hugeStream 11 1024 (by norm_num) (by norm_num), by decide⟩
  all_goals rw [parse_fail_hugeStream _ (by norm_num) (by norm_num)]

/-- Claim C2 (amended). When an attempt fails because a read line cannot
fit the buffer while the stream is not at end-of-input,
`jpeg_simd_cpu_support` doubles the buffer size (starting from 1024) and
retries the whole read; if every attempt up to the 1 MiB ceiling fails, it
stops retrying and — raising no error — returns the capability mask that
the final (1 MiB) attempt had accumulated before hitting the over-long
line, which is zero only if no feature line preceded that line. -/
theorem jpeg_simd_retry_amended (cpuinfo : Option (List Char))
    (hfail : ∀ k, k ≤ 10 → (parse_proc_cpuinfo (1024 * 2 ^ k) cpuinfo).1 = false) :
    jpeg_simd_cpu_support cpuinfo = (parse_proc_cpuinfo (1024 * 2 ^ 10) cpuinfo).2 := by
  have hlim : ∀ b : Nat, b * 2 ≤ SOMEWHAT_SANE_PROC_CPUINFO_SIZE_LIMIT ↔ b * 2 ≤ 1048576 := by
    intro b; norm_num [SOMEWHAT_SANE_PROC_CPUINFO_SIZE_LIMIT]
  have h0 := hfail 0 (by norm_num); norm_num at h0
  have h1 := hfail 1 (by norm_num); norm_num at h1
  have h2 := hfail 2 (by norm_num); norm_num at h2
  have h3 := hfail 3 (by norm_num); norm_num at h3
  have h4 := hfail 4 (by norm_num); norm_num at h4
  have h5 := hfail 5 (by norm_num); norm_num at h5
  have h6 := hfail 6 (by norm_num); norm_num at h6
  have h7 := hfail 7 (by norm_num); norm_num at h7
  have h8 := hfail 8 (by norm_num); norm_num at h8
  have h9 := hfail 9 (by norm_num); norm_num at h9
  have h10 := hfail 10 (by norm_num); norm_num at h10
  show supportLoop cpuinfo 11 1024 = (parse_proc_cpuinfo (1024 * 2 ^ 10) cpuinfo).2
  rw [supportLoop_parse_fail_retry _ _ _ h0 ((hlim 1024).2 (by norm_num))]; norm_num
  rw [supportLoop_parse_fail_retry _ _ _ h1 ((hlim 2048).2 (by norm_num))]; norm_num
  rw [supportLoop_parse_fail_retry _ _ _ h2 ((hlim 4096).2 (by norm_num))]; norm_num
  rw [supportLoop_parse_fail_retry _ _ _ h3 ((hlim 8192).2 (by norm_num))]; norm_num
  rw [supportLoop_parse_fail_retry _ _ _ h4 ((hlim 16384).2 (by norm_num))]; norm_num
  rw [supportLoop_parse_fail_retry _ _ _ h5 ((hlim 32768).2 (by norm_num))]; norm_num
  rw [supportLoop_parse_fail_retry _ _ _ h6 ((hlim 65536).2 (by norm_num))]; norm_num
  rw [supportLoop_parse_fail_retry _ _ _ h7 ((hlim 131072).2 (by norm_num))]; norm_num
  rw [supportLoop_parse_fail_retry _ _ _ h8 ((hlim 262144).2 (by norm_num))]; norm_num
  rw [supportLoop_parse_fail_retry _ _ _ h9 ((hlim 524288).2 (by norm_num))]; norm_num
  rw [supportLoop_parse_fail_stop _ _ _ h10
    (by norm_num [SOMEWHAT_SANE_PROC_CPUINFO_SIZE_LIMIT])]

/-- Witness for the amended claim C2, at the concrete stream `hugeStream`:
all eleven attempts fail and the returned mask is exactly the final
attempt's mask. -/
theorem jpeg_simd_retry_amended_witness :
    (∀ k, k ≤ 10 → (parse_proc_cpuinfo (1024 * 2 ^ k) (some hugeStream)).1 = false) ∧
    jpeg_simd_cpu_support (some hugeStream) =
      (parse_proc_cpuinfo (1024 * 2 ^ 10) (some hugeStream)).2 := by
  have hfail : ∀ k, k ≤ 10 → (parse_proc_cpuinfo (1024 * 2 ^ k) (some hugeStream)).1 = false := by
    intro k hk
    have hpow : 2 ^ k ≤ 2 ^ 10 := Nat.pow_le_pow_right (by norm_num) hk
    have hone : 1 ≤ 2 ^ k := Nat.one_le_two_pow
    rw [parse_fail_hugeStream _ (by nlinarith) (by nlinarith [hpow])]
  exact ⟨hfail, jpeg_simd_retry_amended _ hfail⟩

/-- Claim C3 (counterexample). For `TJPF_RGBX` (pixel format index 2) the
pixel size is 4 bytes but only three channel offsets are defined (red,
green, blue; alpha is the sentinel -1), so `tjPixelSize[f]` does not equal
the number of defined channel offsets. -/
theorem tjPixelSize_count_counterexample :
    tjPixelSize.getD 2 0 ≠ (definedOffsetCount 2 : Int) := by decide

/-- Claim C3 (amended). For every pixel format the number of defined
channel offsets is at most `tjPixelSize[f]` (equality fails for the padded
X formats and for CMYK, whose ink channels have no R/G/B/A offsets), and
every defined offset is nonnegative and strictly less than
`tjPixelSize[f]`. -/
theorem tj_channel_offsets_amended (f : Nat) (hf : f < 12) :
    (definedOffsetCount f : Int) ≤ tjPixelSize.getD f 0 ∧
    ∀ o ∈ channelOffsets f, o ≠ -1 → 0 ≤ o ∧ o < tjPixelSize.getD f 0 := by
  revert f
  decide

/-- Witness for the amended claim C3 at format 7 (`TJPF_RGBA`). -/
theorem tj_channel_offsets_amended_witness :
    7 < 12 ∧
    ((definedOffsetCount 7 : Int) ≤ tjPixelSize.getD 7 0 ∧
     ∀ o ∈ channelOffsets 7, o ≠ -1 → 0 ≤ o ∧ o < tjPixelSize.getD 7 0) :=
  ⟨by decide, tj_channel_offsets_amended 7 (by decide)⟩

/-- Claim C4. Each entry of `tjMCUWidth` is 8 times the horizontal chroma
divisor of its subsampling mode and each entry of `tjMCUHeight` is 8 times
the vertical divisor, giving iMCU pixel areas 8×8 (4:4:4), 16×8 (4:2:2),
16×16 (4:2:0), 8×8 (grayscale), 8×16 (4:4:0) and 32×8 (4:1:1) in enum
order. -/
theorem tjMCU_iMCU_tables :
    tjMCUWidth = hDiv.map (fun d => 8 * d) ∧
    tjMCUHeight = vDiv.map (fun d => 8 * d) ∧
    tjMCUWidth.zip tjMCUHeight =
      [(8, 8), (16, 8), (16, 16), (8, 8), (8, 16), (32, 8)] := by
  decide

/-- Claim C5. For every dimension and every scaling factor with numerator
and denominator at least 1 (exact integer arithmetic, no overflow),
`TJSCALED` computes the mathematical ceiling of
`dimension * num / denom`. -/
theorem TJSCALED_eq_ceil (d : Nat) (sf : tjscalingfactor)
    (hnum : 1 ≤ sf.num) (hden : 1 ≤ sf.denom) :
    (TJSCALED d sf : Int) = ⌈((d * sf.num : Nat) : ℚ) / ((sf.denom : Nat) : ℚ)⌉ := by
  obtain ⟨num, denom⟩ := sf
  simp only [TJSCALED] at *
  set a := d * num with ha
  set b := denom with hbdef
  have hb : 0 < b := hden
  have hbq : (0 : ℚ) < (b : ℚ) := by exact_mod_cast hb
  set q := (a + b - 1) / b with hq
  set r := (a + b - 1) % b with hr
  have hdm : b * q + r = a + b - 1 := Nat.div_add_mod _ _
  have hrb : r < b := Nat.mod_lt _ hb
  have hab : 1 ≤ a + b := by omega
  have hdmq : (b : ℚ) * q + r = (a : ℚ) + b - 1 := by
    have hcast := congrArg (fun n : Nat => (n : ℚ)) hdm
    push_cast [Nat.cast_sub hab] at hcast
    linarith
  have hrq : (r : ℚ) ≤ (b : ℚ) - 1 := by
    have hcast : (r : ℚ) + 1 ≤ (b : ℚ) := by exact_mod_cast hrb
    linarith
  have hr0 : (0 : ℚ) ≤ (r : ℚ) := by positivity
  rw [eq_comm, Int.ceil_eq_iff]
  constructor
  · push_cast
    rw [sub_lt_iff_lt_add,
      show ((a : ℚ) / (b : ℚ) + 1 : ℚ) = ((a : ℚ) + (b : ℚ)) / (b : ℚ) by field_simp,
      lt_div_iff₀ hbq]
    nlinarith [hdmq, hr0]
  · push_cast
    rw [div_le_iff₀ hbq]
    nlinarith [hdmq, hrq]

/-- Witness for claim C5 at dimension 100 and scaling factor 5/8. -/
theorem TJSCALED_eq_ceil_witness :
    1 ≤ (tjscalingfactor.mk 5 8).num ∧ 1 ≤ (tjscalingfactor.mk 5 8).denom ∧
    (TJSCALED 100 ⟨5, 8⟩ : Int) =
      ⌈((100 * (tjscalingfactor.mk 5 8).num : Nat) : ℚ) /
        (((tjscalingfactor.mk 5 8).denom : Nat) : ℚ)⌉ :=
  ⟨by decide, by decide, TJSCALED_eq_ceil 100 ⟨5, 8⟩ (by decide) (by decide)⟩

/-- Claim C6 (spec-modelled scaling-factor list and selection).  With the
supported factors ordered largest-first, the largest factor whose scaled
width for a native dimension of 100 does not exceed 60 is 1/2, with scaled
width 50; the next-larger supported factor 5/8 (the list entry just before
1/2) scales 100 to 63 and does not qualify. -/
theorem scaling_factor_selection_100_60 :
    selectScalingFactor 100 60 = some ⟨1, 2⟩ ∧
    TJSCALED 100 ⟨1, 2⟩ = 50 ∧
    TJSCALED 100 ⟨5, 8⟩ = 63 ∧
    ¬ TJSCALED 100 ⟨5, 8⟩ ≤ 60 ∧
    scalingFactors.getD 11 ⟨0, 0⟩ = ⟨5, 8⟩ ∧
    scalingFactors.getD 12 ⟨0, 0⟩ = ⟨1, 2⟩ := by
  decide

/-- Claim C10. For every width whose `width + 3` stays below the signed
32-bit overflow bound, `TJPAD(width)` is the smallest multiple of 4 that is
greater than or equal to `width`. -/
theorem TJPAD_smallest_multiple (width : Nat) (h : width + 3 < 2 ^ 31) :
    4 ∣ TJPAD width ∧ width ≤ TJPAD width ∧
      ∀ m, 4 ∣ m → width ≤ m → TJPAD width ≤ m := by
  have h32 : width + 3 < 2 ^ 32 := lt_trans h (by norm_num)
  have heq : TJPAD width = 4 * ((width + 3) / 4) := land_mask _ h32
  refine ⟨⟨(width + 3) / 4, heq⟩, by rw [heq]; omega, ?_⟩
  intro m hm hwm
  rw [heq]
  omega

/-- Witness for claim C10 at width 5 (`TJPAD 5 = 8`). -/
theorem TJPAD_smallest_multiple_witness :
    5 + 3 < 2 ^ 31 ∧
    (4 ∣ TJPAD 5 ∧ 5 ≤ TJPAD 5 ∧ ∀ m, 4 ∣ m → 5 ≤ m → TJPAD 5 ≤ m) :=
  ⟨by norm_num, TJPAD_smallest_multiple 5 (by norm_num)⟩
